import Mathlib

/-!
# Verification of the CredTech scoring pipeline

Shallow embedding of the scoring orchestration pipeline of the
CredTech-Hackathon backend (`app/models/credit_scorer.py`,
`app/services/processing.py`, `app/services/cache_service.py`) and proofs
about its behaviour.

Modelling conventions:
* Python floats are modelled as rationals (`ℚ`); `np.log` is an abstract
  parameter `rlog : ℚ → ℚ` (no claim depends on its values).
* A Python dict record is a structure of `Option ℚ` fields; `None` models a
  missing key, so `d.get(key, default)` becomes `Option.getD`.  The empty
  dict `{}` (falsy in Python) is the all-`none` record.
* The sklearn model and scaler are black boxes; their `transform` and
  `predict` are `Except`-valued functions (an `error` models a raised
  exception inside the `try` of `calculate_score`).
* `datetime.now()` is an abstract `Nat` passed in; TTL arguments are carried
  but advisory (expiration is not modelled).
* Redis is a key/value state; a `failing` flag models the connection
  raising, which the `try/except` wrappers in `cache_service.py` turn into
  `None` reads and `False` writes.
-/

namespace CredTech

/-- The record produced by `get_financial_data`; fields read by the scorer
via `financial_data.get(...)`.  All-`none` models the empty dict `{}`. -/
structure FinancialData where
  market_cap : Option ℚ
  debt_to_equity : Option ℚ
  current_ratio : Option ℚ
  roe : Option ℚ
  price_change_30d : Option ℚ
  volatility : Option ℚ
  volume_avg : Option ℚ
deriving DecidableEq, Repr

/-- Python truthiness of the financial dict: `if finData:` is false exactly
for the empty dict. -/
def FinancialData.isEmpty (d : FinancialData) : Bool :=
  d.market_cap.isNone && d.debt_to_equity.isNone && d.current_ratio.isNone &&
  d.roe.isNone && d.price_change_30d.isNone && d.volatility.isNone &&
  d.volume_avg.isNone

/-- The empty financial dict `{}`. -/
def emptyFin : FinancialData := ⟨none, none, none, none, none, none, none⟩

/-- The record produced by `get_news_sentiment`. -/
structure NewsData where
  sentiment_score : Option ℚ
  news_count : Option ℚ
  headlines : List String
deriving DecidableEq, Repr

/-- The empty news dict `{}` (the default of `news_data.get(ticker, {})`). -/
def emptyNews : NewsData := ⟨none, none, []⟩

/-- The record produced by `get_macro_data`. -/
structure MacroData where
  vix : Option ℚ
  treasury_10y : Option ℚ
  unemployment : Option ℚ
  inflation : Option ℚ
  gdp_growth : Option ℚ
deriving DecidableEq, Repr

/-- The dict returned by `CreditScorer.calculate_score` /
`CreditScorer._fallback_score`. -/
structure ScoreResult where
  ticker : String
  score : ℚ
  risk_level : String
  color : String
  contributions : List (String × ℚ)
  explanation : String
  timestamp : Nat
deriving DecidableEq, Repr

/-- The risk tier / colour chain used in both `calculate_score`
(lines 121-129) and `_fallback_score` (lines 175-183):
`score >= 750 → Low`, `score >= 500 → Medium`, else `High`. -/
def risk_of (score : ℚ) : String × String :=
  if 750 ≤ score then ("Low Risk", "green")
  else if 500 ≤ score then ("Medium Risk", "yellow")
  else ("High Risk", "red")

/-- Python's `round` to an integer: round half to even. -/
def pyRound (q : ℚ) : ℤ :=
  if q - (⌊q⌋ : ℚ) < 1/2 then ⌊q⌋
  else if 1/2 < q - (⌊q⌋ : ℚ) then ⌊q⌋ + 1
  else if 2 ∣ ⌊q⌋ then ⌊q⌋ else ⌊q⌋ + 1

/-- Python's `round(q, d)` for `d` decimal digits. -/
def roundTo (d : Nat) (q : ℚ) : ℚ :=
  (pyRound (q * (10 : ℚ) ^ d) : ℚ) / (10 : ℚ) ^ d

/-- `CreditScorer._fallback_score` (credit_scorer.py lines 149-193): base
500, additive rule adjustments, clamp, tier.  The Python default of the
`ticker` parameter is `"UNKNOWN"`; callers that omit it are modelled by
passing `"UNKNOWN"` explicitly.  The inner `except` branch (lines 195-205)
is unreachable for well-typed inputs and is not modelled. -/
def fallback_score (now : Nat) (financial_data : FinancialData)
    (news_data : NewsData) (ticker : String) : ScoreResult :=
  let base0 : ℤ := 500
  let debt_to_equity := financial_data.debt_to_equity.getD 1
  let base1 :=
    if debt_to_equity < 1/2 then base0 + 100
    else if 2 < debt_to_equity then base0 - 150
    else base0
  let roe := financial_data.roe.getD 0
  let base2 :=
    if 3/20 < roe then base1 + 100
    else if roe < 0 then base1 - 200
    else base1
  let sentiment := news_data.sentiment_score.getD (1/2)
  let base3 :=
    if 3/5 < sentiment then base2 + 50
    else if sentiment < 2/5 then base2 - 50
    else base2
  let score : ℤ := max 0 (min 1000 base3)
  let rc := risk_of (score : ℚ)
  { ticker := ticker
    score := (score : ℚ)
    risk_level := rc.1
    color := rc.2
    contributions := [("fallback", 1)]
    explanation := "Fallback scoring used. Score: " ++ toString score ++ "/1000"
    timestamp := now }

/-- Modelled from the spec's words (§4.1 `FallbackScore`): base 500 with the
fixed additive adjustments, clamped to [0,1000].  Used only to compare the
spec's rule table against `fallback_score` as implemented. -/
def fallback_rule_score (debt_to_equity roe sentiment : ℚ) : ℚ :=
  max 0 (min 1000 (500
    + (if debt_to_equity < 1/2 then 100 else if 2 < debt_to_equity then -150 else 0)
    + (if 3/20 < roe then 100 else if roe < 0 then -200 else 0)
    + (if 3/5 < sentiment then 50 else if sentiment < 2/5 then -50 else 0)))

/-- C2: `_fallback_score` equals the spec's rule-based reference (base 500,
the exact additive adjustments for debt-to-equity / ROE / sentiment, then
clamping to [0,1000]); in particular debt-to-equity 0.3, ROE 0.2,
sentiment 0.8 yields 750 with tier "Low Risk", and debt-to-equity 3.0,
ROE −0.1, sentiment 0.2 yields 100 with tier "High Risk". -/
theorem fallback_matches_rule_spec :
    (∀ (now : Nat) (fin : FinancialData) (news : NewsData) (tk : String),
      (fallback_score now fin news tk).score
        = fallback_rule_score (fin.debt_to_equity.getD 1) (fin.roe.getD 0)
            (news.sentiment_score.getD (1/2)))
    ∧ (fallback_score 0 ⟨none, some (3/10), none, some (1/5), none, none, none⟩
        ⟨some (4/5), none, []⟩ "ACME").score = 750
    ∧ (fallback_score 0 ⟨none, some (3/10), none, some (1/5), none, none, none⟩
        ⟨some (4/5), none, []⟩ "ACME").risk_level = "Low Risk"
    ∧ (fallback_score 0 ⟨none, some 3, none, some (-1/10), none, none, none⟩
        ⟨some (1/5), none, []⟩ "ACME").score = 100
    ∧ (fallback_score 0 ⟨none, some 3, none, some (-1/10), none, none, none⟩
        ⟨some (1/5), none, []⟩ "ACME").risk_level = "High Risk" := by
  refine ⟨?_, ?_, ?_, ?_, ?_⟩
  · intro now fin news tk
    simp only [fallback_score, fallback_rule_score]
    split_ifs <;> push_cast <;> norm_num
  all_goals norm_num [fallback_score, risk_of]

/-- The sklearn model and scaler held by `CreditScorer`, as a black box
(spec §2: "a pre-trained, swappable black box").  `scalerTransform` models
`self.scaler.transform`, `predict` models `self.model.predict(...)[0]`,
`featureImportances` models `self.model.feature_importances_`; an
`Except.error` models the call raising (caught by `calculate_score`). -/
structure Model where
  isTrained : Bool
  scalerTransform : List ℚ → Except Unit (List ℚ)
  predict : List ℚ → Except Unit ℚ
  featureImportances : List ℚ

/-- `CreditScorer.feature_names` (credit_scorer.py lines 15-19). -/
def feature_names : List String :=
  ["market_cap_log", "debt_to_equity", "current_ratio", "roe",
   "price_change_30d", "volatility", "volume_avg_log",
   "sentiment_score", "news_count", "vix", "treasury_10y"]

/-- `CreditScorer._extract_features` (lines 66-95).  `rlog` abstracts
`np.log`.  The body cannot raise on well-typed inputs, so the `except`
branch returning a zero vector is unreachable and not modelled. -/
def extract_features (rlog : ℚ → ℚ) (financial_data : FinancialData)
    (news_data : NewsData) (macro_data : MacroData) : List ℚ :=
  let market_cap := financial_data.market_cap.getD 1000000000
  let market_cap_log := rlog (max market_cap 1000000)
  let debt_to_equity := min (financial_data.debt_to_equity.getD 1) 10
  let current_ratio := max (financial_data.current_ratio.getD 1) (1/10)
  let roe := financial_data.roe.getD (1/10)
  let price_change_30d := financial_data.price_change_30d.getD 0
  let volatility := financial_data.volatility.getD 1
  let volume_avg := financial_data.volume_avg.getD 1000000
  let volume_avg_log := rlog (max volume_avg 1000)
  let sentiment_score := news_data.sentiment_score.getD (1/2)
  let news_count := news_data.news_count.getD 0
  let vix := macro_data.vix.getD 20
  let treasury_10y := macro_data.treasury_10y.getD 4
  [market_cap_log, debt_to_equity, current_ratio, roe, price_change_30d,
   volatility, volume_avg_log, sentiment_score, news_count, vix, treasury_10y]

/-- Insertion step for the stable sort by descending absolute value used in
`_generate_explanation` (`sorted(..., key=lambda x: abs(x[1]), reverse=True)`). -/
def insertAbsDesc (x : String × ℚ) : List (String × ℚ) → List (String × ℚ)
  | [] => [x]
  | y :: ys => if |y.2| ≤ |x.2| then x :: y :: ys else y :: insertAbsDesc x ys

/-- Stable sort by descending absolute value. -/
def sortAbsDesc : List (String × ℚ) → List (String × ℚ)
  | [] => []
  | x :: xs => insertAbsDesc x (sortAbsDesc xs)

/-- `factor.replace('_', ' ')`; the `.title()` capitalisation is presentation
only and not modelled (no claim concerns the explanation text). -/
def feature_readable (s : String) : String :=
  String.map (fun c => if c = '_' then ' ' else c) s

/-- `CreditScorer._generate_explanation` (lines 207-247).  The `{score:.0f}`
float formatting is rendered via `pyRound`; the selection logic (top 3 by
absolute contribution, significance threshold 10, at most 2 listed,
sentiment remark only when headlines are present) follows the source. -/
def generate_explanation (ticker : String) (score : ℚ)
    (contributions : List (String × ℚ)) (news_data : NewsData) : String :=
  let top_factors := (sortAbsDesc contributions).take 3
  let e1 := ticker ++ " credit score: " ++ toString (pyRound score) ++ "/1000. "
  let e2 := e1 ++
    (if 750 ≤ score then "Strong creditworthiness. "
     else if 500 ≤ score then "Moderate credit risk. "
     else "Higher credit risk concerns. ")
  let key_factors := (top_factors.filter (fun p => 10 < |p.2|)).map
    (fun p => feature_readable p.1 ++ " (" ++
      (if 0 < p.2 then "positive" else "negative") ++ ")")
  let e3 :=
    if key_factors.isEmpty then e2
    else e2 ++ "Key factors: " ++ String.intercalate ", " (key_factors.take 2) ++ ". "
  if news_data.headlines.isEmpty then e3
  else
    let sentiment := news_data.sentiment_score.getD (1/2)
    if 3/5 < sentiment then e3 ++ "Recent news sentiment is positive. "
    else if sentiment < 2/5 then e3 ++ "Recent news sentiment shows concerns. "
    else e3

/-- The contribution map of the model path (lines 115-118):
`contributions[name] = round(features_scaled[0][i] * feature_importance[i] * 100, 2)`. -/
def contributions_of (features_scaled importances : List ℚ) : List (String × ℚ) :=
  (feature_names.zip (features_scaled.zip importances)).map
    (fun p => (p.1, roundTo 2 (p.2.1 * p.2.2 * 100)))

/-- The `try` body of `CreditScorer.calculate_score` after the trained-model
check (lines 104-144).  An `Except.error` is an exception inside the `try`:
either `scaler.transform` / `model.predict` raising, or the `IndexError`
from indexing `features_scaled[0][i]` / `feature_importance[i]` when either
vector does not cover the 11 feature names. -/
def model_body (m : Model) (rlog : ℚ → ℚ) (now : Nat) (ticker : String)
    (financial_data : FinancialData) (news_data : NewsData)
    (macro_data : MacroData) : Except Unit ScoreResult := do
  let features := extract_features rlog financial_data news_data macro_data
  let features_scaled ← m.scalerTransform features
  let raw ← m.predict features_scaled
  let score := max 0 (min 1000 raw)
  if feature_names.length ≤ features_scaled.length ∧
      feature_names.length ≤ m.featureImportances.length then
    let contributions := contributions_of features_scaled m.featureImportances
    let rc := risk_of score
    let explanation := generate_explanation ticker score contributions news_data
    pure { ticker := ticker
           score := roundTo 1 score
           risk_level := rc.1
           color := rc.2
           contributions := contributions
           explanation := explanation
           timestamp := now }
  else throw ()

/-- `CreditScorer.calculate_score` (lines 97-147): untrained model →
fallback without the ticker argument (Python default `"UNKNOWN"`); any
exception in the `try` body → fallback with the ticker. -/
def calculate_score (m : Model) (rlog : ℚ → ℚ) (now : Nat) (ticker : String)
    (financial_data : FinancialData) (news_data : NewsData)
    (macro_data : MacroData) : ScoreResult :=
  if m.isTrained = false then
    fallback_score now financial_data news_data "UNKNOWN"
  else
    match model_body m rlog now ticker financial_data news_data macro_data with
    | Except.ok r => r
    | Except.error _ => fallback_score now financial_data news_data ticker

/-- The clamped raw model score (line 108-109), before the `round(score, 1)`
applied when storing it in the result dict. -/
def model_raw_score (m : Model) (rlog : ℚ → ℚ)
    (financial_data : FinancialData) (news_data : NewsData)
    (macro_data : MacroData) : Except Unit ℚ := do
  let features := extract_features rlog financial_data news_data macro_data
  let features_scaled ← m.scalerTransform features
  let raw ← m.predict features_scaled
  pure (max 0 (min 1000 raw))

theorem floor_le_pyRound (q : ℚ) : ⌊q⌋ ≤ pyRound q := by
  unfold pyRound
  split_ifs <;> omega

theorem pyRound_le_ceil (q : ℚ) : pyRound q ≤ ⌈q⌉ := by
  unfold pyRound
  have hfc := Int.floor_le_ceil q
  split_ifs with h1 h2 h3
  · exact hfc
  · have h : (⌊q⌋ : ℚ) < q := by linarith
    have := Int.lt_ceil.mpr h
    omega
  · exact hfc
  · have h : (⌊q⌋ : ℚ) < q := by linarith
    have := Int.lt_ceil.mpr h
    omega

theorem pyRound_intCast (n : ℤ) : pyRound ((n : ℚ)) = n := by
  norm_num [pyRound]

theorem roundTo_intCast (d : Nat) (n : ℤ) : roundTo d ((n : ℚ)) = (n : ℚ) := by
  unfold roundTo
  have h : (n : ℚ) * (10 : ℚ) ^ d = ((n * 10 ^ d : ℤ) : ℚ) := by push_cast; ring
  rw [h, pyRound_intCast]
  have hp : ((10 : ℚ)) ^ d ≠ 0 := by positivity
  push_cast
  field_simp

theorem roundTo_bounds (d : Nat) (a b : ℤ) (q : ℚ) (ha : (a : ℚ) ≤ q)
    (hb : q ≤ (b : ℚ)) : (a : ℚ) ≤ roundTo d q ∧ roundTo d q ≤ (b : ℚ) := by
  have hp : (0 : ℚ) < (10 : ℚ) ^ d := by positivity
  constructor
  · rw [roundTo, le_div_iff₀ hp]
    have h1 : (a : ℚ) * 10 ^ d ≤ q * 10 ^ d := mul_le_mul_of_nonneg_right ha hp.le
    have h2 : (a * 10 ^ d : ℤ) ≤ ⌊q * (10 : ℚ) ^ d⌋ :=
      Int.le_floor.mpr (by push_cast; exact h1)
    have h3 := floor_le_pyRound (q * (10 : ℚ) ^ d)
    exact_mod_cast le_trans h2 h3
  · rw [roundTo, div_le_iff₀ hp]
    have h1 : q * 10 ^ d ≤ (b : ℚ) * 10 ^ d := mul_le_mul_of_nonneg_right hb hp.le
    have h2 : ⌈q * (10 : ℚ) ^ d⌉ ≤ b * 10 ^ d :=
      Int.ceil_le.mpr (by push_cast; exact h1)
    have h3 := pyRound_le_ceil (q * (10 : ℚ) ^ d)
    exact_mod_cast le_trans h3 h2

/-- `_fallback_score` computes an integer score in [0,1000] and derives the
tier from exactly that score. -/
theorem fallback_props (now : Nat) (fin : FinancialData) (news : NewsData)
    (tk : String) :
    ∃ n : ℤ, 0 ≤ n ∧ n ≤ 1000 ∧
      (fallback_score now fin news tk).score = (n : ℚ) ∧
      (fallback_score now fin news tk).risk_level = (risk_of ((n : ℚ))).1 := by
  simp only [fallback_score]
  exact ⟨_, le_max_left _ _, max_le (by norm_num) (min_le_left _ _), rfl, rfl⟩

/-- The fields of a successful `try` body of `calculate_score`: the result
carries the requested ticker, its tier is derived from the clamped raw
model score, and its stored score is that value rounded to one decimal. -/
theorem model_body_ok (m : Model) (rlog : ℚ → ℚ) (now : Nat) (ticker : String)
    (fin : FinancialData) (news : NewsData) (mac : MacroData) (r : ScoreResult)
    (h : model_body m rlog now ticker fin news mac = Except.ok r) :
    r.ticker = ticker ∧
    ∃ s0 : ℚ, 0 ≤ s0 ∧ s0 ≤ 1000 ∧ r.score = roundTo 1 s0 ∧
      r.risk_level = (risk_of s0).1 := by
  simp only [model_body, Bind.bind, Except.bind] at h
  cases hs : m.scalerTransform (extract_features rlog fin news mac) with
  | error e => rw [hs] at h; simp at h
  | ok scaled =>
    rw [hs] at h
    dsimp only at h
    cases hp : m.predict scaled with
    | error e => rw [hp] at h; simp at h
    | ok raw =>
      rw [hp] at h
      dsimp only at h
      by_cases hg : feature_names.length ≤ scaled.length ∧
          feature_names.length ≤ m.featureImportances.length
      · rw [if_pos hg] at h
        simp only [Pure.pure, Except.pure, Except.ok.injEq] at h
        subst h
        refine ⟨rfl, max 0 (min 1000 raw), le_max_left _ _,
          max_le (by norm_num) (min_le_left _ _), rfl, rfl⟩
      · rw [if_neg hg] at h
        simp [throw, throwThe, MonadExceptOf.throw] at h

/-- C3 (amended): every result of `calculate_score` has a score in
[0,1000], and its risk tier is the threshold function (≥750 → Low,
≥500 → Medium, else High) of the pre-rounding clamped score `s0`, the
stored score being `round(s0, 1)`.  (On the fallback path `s0` is the
stored integer score itself.)  The tier can disagree with the thresholds
applied to the *stored* score only at a rounding boundary. -/
theorem score_range_and_tier (m : Model) (rlog : ℚ → ℚ) (now : Nat)
    (ticker : String) (fin : FinancialData) (news : NewsData) (mac : MacroData) :
    0 ≤ (calculate_score m rlog now ticker fin news mac).score ∧
    (calculate_score m rlog now ticker fin news mac).score ≤ 1000 ∧
    ∃ s0 : ℚ, 0 ≤ s0 ∧ s0 ≤ 1000 ∧
      (calculate_score m rlog now ticker fin news mac).score = roundTo 1 s0 ∧
      (calculate_score m rlog now ticker fin news mac).risk_level
        = (risk_of s0).1 := by
  unfold calculate_score
  by_cases ht : m.isTrained = false
  · rw [if_pos ht]
    obtain ⟨n, h0, h1, hs, hr⟩ := fallback_props now fin news "UNKNOWN"
    rw [hs, hr]
    refine ⟨by exact_mod_cast h0, by exact_mod_cast h1, (n : ℚ),
      by exact_mod_cast h0, by exact_mod_cast h1, ?_, rfl⟩
    rw [roundTo_intCast]
  · rw [if_neg ht]
    cases hb : model_body m rlog now ticker fin news mac with
    | error e =>
      obtain ⟨n, h0, h1, hs, hr⟩ := fallback_props now fin news ticker
      rw [hs, hr]
      refine ⟨by exact_mod_cast h0, by exact_mod_cast h1, (n : ℚ),
        by exact_mod_cast h0, by exact_mod_cast h1, ?_, rfl⟩
      rw [roundTo_intCast]
    | ok r =>
      obtain ⟨-, s0, h0, h1, hs, hr⟩ := model_body_ok m rlog now ticker fin news mac r hb
      obtain ⟨hlo, hhi⟩ := roundTo_bounds 1 0 1000 s0 (by exact_mod_cast h0)
        (by exact_mod_cast h1)
      rw [hs, hr]
      exact ⟨by exact_mod_cast hlo, by exact_mod_cast hhi, s0, h0, h1, rfl, rfl⟩

/-- Stand-in for `np.log` in concrete evaluations (its values are
irrelevant to every claim). -/
def rlog0 : ℚ → ℚ := fun _ => 0

/-- A scaler whose `transform` is the identity (a fitted `StandardScaler`
with zero means and unit scales behaves this way). -/
def idTransform : List ℚ → Except Unit (List ℚ) := fun v => Except.ok v

/-- An importance vector covering the 11 features. -/
def zeros11 : List ℚ := List.replicate 11 0

/-- The empty macro dict `{}`. -/
def macEmpty : MacroData := ⟨none, none, none, none, none⟩

/-- A trained model whose regression output is 749.96 — inside the Medium
tier but rounding to 750.0 at one decimal. -/
def mBoundary : Model := ⟨true, idTransform, fun _ => Except.ok (18749/25), zeros11⟩

/-- A trained model that predicts 600. -/
def mOk : Model := ⟨true, idTransform, fun _ => Except.ok 600, zeros11⟩

/-- The scorer before `_train_initial_model` succeeded. -/
def mUntrained : Model := ⟨false, idTransform, fun _ => Except.ok 600, zeros11⟩

/-- A trained model whose `predict` raises. -/
def mErr : Model := ⟨true, idTransform, fun _ => Except.error (), zeros11⟩

/-- C3 (counterexample): with a trained model predicting 749.96, the
returned result has score 750.0 (the stored score is `round(score, 1)`)
but tier "Medium Risk" (the tier is derived from the pre-rounding score),
so the risk tier of the returned result is not the threshold function
(score ≥ 750 → "Low Risk") of the returned score. -/
theorem tier_not_function_of_returned_score :
    (calculate_score mBoundary rlog0 0 "AAPL" emptyFin emptyNews macEmpty).score
      = 750 ∧
    (calculate_score mBoundary rlog0 0 "AAPL" emptyFin emptyNews macEmpty).risk_level
      = "Medium Risk" ∧
    ¬ (750 ≤ (calculate_score mBoundary rlog0 0 "AAPL" emptyFin emptyNews
          macEmpty).score →
        (calculate_score mBoundary rlog0 0 "AAPL" emptyFin emptyNews
          macEmpty).risk_level = "Low Risk") := by
  constructor
  · norm_num [calculate_score, model_body, mBoundary, idTransform, zeros11,
      extract_features, feature_names, Bind.bind, Except.bind, Pure.pure,
      Except.pure, roundTo, pyRound, risk_of]
  constructor
  · norm_num [calculate_score, model_body, mBoundary, idTransform, zeros11,
      extract_features, feature_names, Bind.bind, Except.bind, Pure.pure,
      Except.pure, roundTo, pyRound, risk_of]
  · intro hcl
    have h750 : (calculate_score mBoundary rlog0 0 "AAPL" emptyFin emptyNews
        macEmpty).score = 750 := by
      norm_num [calculate_score, model_body, mBoundary, idTransform, zeros11,
        extract_features, feature_names, Bind.bind, Except.bind, Pure.pure,
        Except.pure, roundTo, pyRound, risk_of]
    have hmed : (calculate_score mBoundary rlog0 0 "AAPL" emptyFin emptyNews
        macEmpty).risk_level = "Medium Risk" := by
      norm_num [calculate_score, model_body, mBoundary, idTransform, zeros11,
        extract_features, feature_names, Bind.bind, Except.bind, Pure.pure,
        Except.pure, roundTo, pyRound, risk_of]
    have := hcl (by rw [h750])
    rw [hmed] at this
    exact absurd this (by decide)

/-- C6: `calculate_score` is total (it is a function, never an exception):
whenever the model path raises (any `Except.error` of the `try` body —
feature scaling, inference, or the contribution indexing), the returned
result is exactly the fallback result, and a fallback result's
contribution map has the degraded-mode sentinel `"fallback"` as its only
key. -/
theorem score_never_raises (m : Model) (rlog : ℚ → ℚ) (now : Nat)
    (ticker : String) (fin : FinancialData) (news : NewsData) (mac : MacroData)
    (htr : m.isTrained = true)
    (herr : model_body m rlog now ticker fin news mac = Except.error ()) :
    calculate_score m rlog now ticker fin news mac
      = fallback_score now fin news ticker ∧
    (calculate_score m rlog now ticker fin news mac).contributions
      = [("fallback", 1)] := by
  have hc : calculate_score m rlog now ticker fin news mac
      = fallback_score now fin news ticker := by
    unfold calculate_score
    rw [if_neg (by simp [htr]), herr]
  exact ⟨hc, by rw [hc]; rfl⟩

/-- C6 (witness): a trained model whose `predict` raises falls back, with
the sentinel-only contribution map. -/
theorem score_never_raises_witness :
    calculate_score mErr rlog0 0 "AAPL" emptyFin emptyNews macEmpty
      = fallback_score 0 emptyFin emptyNews "AAPL" ∧
    (calculate_score mErr rlog0 0 "AAPL" emptyFin emptyNews macEmpty).contributions
      = [("fallback", 1)] :=
  score_never_raises mErr rlog0 0 "AAPL" emptyFin emptyNews macEmpty rfl
    (by simp [model_body, mErr, idTransform, Bind.bind, Except.bind])

/-- With a trained model every path of `calculate_score` (success or
exception-fallback) returns the requested ticker. -/
theorem calculate_score_ticker_trained (m : Model) (rlog : ℚ → ℚ) (now : Nat)
    (ticker : String) (fin : FinancialData) (news : NewsData) (mac : MacroData)
    (htr : m.isTrained = true) :
    (calculate_score m rlog now ticker fin news mac).ticker = ticker := by
  unfold calculate_score
  rw [if_neg (by simp [htr])]
  cases hb : model_body m rlog now ticker fin news mac with
  | ok r => exact (model_body_ok m rlog now ticker fin news mac r hb).1
  | error e => rfl

/-- C10: when the model is untrained the fallback is invoked without the
ticker argument, so the returned entity id is the literal "UNKNOWN"
regardless of the requested ticker; on every path of a trained model the
returned entity id equals the input ticker. -/
theorem untrained_yields_unknown_ticker (m : Model) (rlog : ℚ → ℚ) (now : Nat)
    (ticker : String) (fin : FinancialData) (news : NewsData) (mac : MacroData) :
    (m.isTrained = false →
      (calculate_score m rlog now ticker fin news mac).ticker = "UNKNOWN") ∧
    (m.isTrained = true →
      (calculate_score m rlog now ticker fin news mac).ticker = ticker) := by
  constructor
  · intro h
    unfold calculate_score
    rw [if_pos h]
    rfl
  · intro h
    exact calculate_score_ticker_trained m rlog now ticker fin news mac h

/-- C10 (witness): with the untrained scorer the returned id is "UNKNOWN"
even though "AAPL" was requested; the trained scorer echoes "AAPL". -/
theorem untrained_yields_unknown_ticker_witness :
    (calculate_score mUntrained rlog0 0 "AAPL" emptyFin emptyNews macEmpty).ticker
      = "UNKNOWN" ∧
    (calculate_score mOk rlog0 0 "AAPL" emptyFin emptyNews macEmpty).ticker
      = "AAPL" :=
  ⟨(untrained_yields_unknown_ticker mUntrained rlog0 0 "AAPL" emptyFin emptyNews
      macEmpty).1 rfl,
   (untrained_yields_unknown_ticker mOk rlog0 0 "AAPL" emptyFin emptyNews
      macEmpty).2 rfl⟩

/-- One entry of the per-ticker history list built by
`_store_historical_scores` (processing.py lines 97-101). -/
structure HistEntry where
  timestamp : Nat
  score : ℚ
  risk_level : String
deriving DecidableEq, Repr

/-- The `processedData` dict built by `process_all_scores`
(processing.py lines 53-58). -/
structure ProcessedBatch where
  scores : List (String × ScoreResult)
  data_timestamp : Option Nat
  processing_timestamp : Nat
  ticker_count : Nat
deriving DecidableEq, Repr

/-- Association-list lookup: Python `dict.get`. -/
def dlookup {α : Type} (l : List (String × α)) (k : String) : Option α :=
  (l.find? (fun p => p.1 == k)).map (fun p => p.2)

/-- Association-list update: Python `d[k] = v` (replace in place if the key
exists, else append). -/
def dinsert {α : Type} (l : List (String × α)) (k : String) (v : α) :
    List (String × α) :=
  if (l.find? (fun p => p.1 == k)).isSome then
    l.map (fun p => if p.1 == k then (k, v) else p)
  else l ++ [(k, v)]

/-- A JSON value stored by `cache_service.Cache`: the key-space layout
(spec §6) stores the latest batch under `latest_scores` and history lists
under `history:<ticker>`. -/
inductive CacheVal
  | batch : ProcessedBatch → CacheVal
  | history : List HistEntry → CacheVal
deriving DecidableEq, Repr

/-- The Redis-backed cache.  `failing` models the connection raising; the
`try/except` in `cache_service.py` turns that into `None` reads
(`get_json`, lines 35-41) and `False` writes (`set_json`, lines 28-33). -/
structure CacheState where
  store : List (String × CacheVal)
  failing : Bool
deriving DecidableEq

/-- `Cache.get_json`: the stored value, or `None` when absent or when the
client raises. -/
def CacheState.get_json (c : CacheState) (k : String) : Option CacheVal :=
  if c.failing then none else dlookup c.store k

/-- `Cache.set_json`: returns the success flag; the TTL is advisory and
not modelled.  On failure the exception is absorbed and `False` returned
(cache_service.py lines 31-33). -/
def CacheState.set_json (c : CacheState) (k : String) (v : CacheVal)
    (_ttl : Nat) : Bool × CacheState :=
  if c.failing then (false, c)
  else (true, { store := dinsert c.store k v, failing := c.failing })

/-- Read of the latest batch (`get_json` followed by the dict's Python
truthiness: a stored batch dict has four keys and is always truthy). -/
def CacheState.getBatch (c : CacheState) (k : String) : Option ProcessedBatch :=
  match c.get_json k with
  | some (CacheVal.batch b) => some b
  | _ => none

/-- Read of a history list. -/
def CacheState.getHistory (c : CacheState) (k : String) :
    Option (List HistEntry) :=
  match c.get_json k with
  | some (CacheVal.history h) => some h
  | _ => none

/-- The mutable state of `ProcessingService` plus the cache it talks to:
`self.processing` (the single-flight flag), `self.last_update`. -/
structure OrchState where
  processing : Bool
  last_update : Option Nat
  cache : CacheState
deriving DecidableEq

/-- The dict returned by `data_ingestion.ingest_all_data` on success
(data_ingestion.py lines 150-155); the orchestrator reads its
`financial`, `news`, `macro` and `timestamp` entries. -/
structure IngestedData where
  financial : List (String × FinancialData)
  news : List (String × NewsData)
  macroRec : MacroData
  timestamp : Nat

/-- The value a scheduled `_calculate_score_async` task contributes to
`asyncio.gather(..., return_exceptions=True)`: a score dict (which always
carries a `ticker` key), the empty dict `{}` from the task's `except`
branch (processing.py lines 82-84), or an exception object. -/
inductive TaskOutcome
  | result : ScoreResult → TaskOutcome
  | emptyDict : TaskOutcome
  | exnObj : TaskOutcome
deriving DecidableEq, Repr

/-- `ProcessingService._calculate_score_async` (lines 72-84): runs
`calculate_score` in an executor; `execFail t = true` models the executor
dispatch raising for ticker `t`, which the `except` turns into `{}`.
(`calculate_score` itself is total, so the dict branch is the normal one.) -/
def calculate_score_async (m : Model) (rlog : ℚ → ℚ) (now : Nat)
    (execFail : String → Bool) (ticker : String)
    (financial_data : FinancialData) (news_data : NewsData)
    (macro_data : MacroData) : TaskOutcome :=
  if execFail ticker then TaskOutcome.emptyDict
  else TaskOutcome.result
    (calculate_score m rlog now ticker financial_data news_data macro_data)

/-- The environment of one `process_all_scores` invocation: the outcome of
`ingest_all_data` (`none` models it returning the falsy `{}`), an injected
exception inside the `try` after ingestion (`raiseInBody`, reaching the
`except` of lines 65-67), per-ticker executor failures, the scorer, and
the wall clock. -/
structure RunParams where
  ingest : Option IngestedData
  raiseInBody : Bool
  execFail : String → Bool
  m : Model
  rlog : ℚ → ℚ
  now : Nat

/-- Which side effects an invocation performed: whether it called
`ingest_all_data` and which tickers it scheduled scoring tasks for. -/
structure Trace where
  ingested : Bool
  scored : List String
deriving DecidableEq, Repr

/-- The trace of an invocation that neither ingested nor scored. -/
def Trace.none : Trace := ⟨false, []⟩

/-- The history entry appended for one ticker (lines 97-101). -/
def history_entry (now : Nat) (r : ScoreResult) : HistEntry :=
  { timestamp := now, score := r.score, risk_level := r.risk_level }

/-- `history.append(entry)` followed by `if len(history) > 100:
history = history[-100:]` (lines 97-105). -/
def append_history (history : List HistEntry) (e : HistEntry) :
    List HistEntry :=
  let h := history ++ [e]
  if 100 < h.length then h.drop (h.length - 100) else h

/-- One iteration of the `_store_historical_scores` loop (lines 91-106):
read the existing history (absent or failing read → `[]`), append the new
entry, truncate, write back with a 86400s TTL. -/
def store_one (now : Nat) (c : CacheState) (p : String × ScoreResult) :
    CacheState :=
  let hist_key := "history:" ++ p.1
  let history := (c.getHistory hist_key).getD []
  let history2 := append_history history (history_entry now p.2)
  (c.set_json hist_key (CacheVal.history history2) 86400).2

/-- `ProcessingService._store_historical_scores` (lines 87-108); its
`except` only logs, and cache failures are already absorbed by
`set_json`/`get_json`. -/
def store_historical_scores (now : Nat) (c : CacheState)
    (scores : List (String × ScoreResult)) : CacheState :=
  scores.foldl (store_one now) c

/-- One iteration of the fan-in loop (lines 47-51): keep a result only if
it is a dict with a `ticker` key, storing it under
`scores[result['ticker']]`; empty dicts and exception objects are
dropped. -/
def collect_step (acc : List (String × ScoreResult)) (out : TaskOutcome) :
    List (String × ScoreResult) :=
  match out with
  | TaskOutcome.result sr => dinsert acc sr.ticker sr
  | TaskOutcome.emptyDict => acc
  | TaskOutcome.exnObj => acc

/-- The fan-in loop over all gathered results. -/
def collect_scores (results : List TaskOutcome) :
    List (String × ScoreResult) :=
  results.foldl collect_step []

/-- The fan-out loop (lines 33-45): one task per ticker of
`financial_data` whose record is truthy, with `news_data.get(ticker, {})`. -/
def run_tasks (p : RunParams) (d : IngestedData) : List TaskOutcome :=
  (d.financial.filter (fun q => !q.2.isEmpty)).map
    (fun q => calculate_score_async p.m p.rlog p.now p.execFail q.1 q.2
      ((dlookup d.news q.1).getD emptyNews) d.macroRec)

/-- The `processedData` dict (lines 53-58). -/
def build_batch (p : RunParams) (d : IngestedData) : ProcessedBatch :=
  let scores := collect_scores (run_tasks p d)
  { scores := scores
    data_timestamp := some d.timestamp
    processing_timestamp := p.now
    ticker_count := scores.length }

/-- `ProcessingService.process_all_scores` (lines 14-69) as a state
transformer.  Return value `none` models the literal empty dict `{}`
(the guard's `or {}` default and both failure returns).  The guard branch
(lines 15-17) returns the cached batch without touching state; the
`finally` (line 69) clears the flag on every other exit path. -/
def process_all_scores (p : RunParams) (s : OrchState) :
    Option ProcessedBatch × OrchState × Trace :=
  if s.processing then
    (s.cache.getBatch "latest_scores", s, Trace.none)
  else
    match p.ingest with
    | Option.none =>
      (none, { s with processing := false }, ⟨true, []⟩)
    | Option.some d =>
      if p.raiseInBody then
        (none, { s with processing := false }, ⟨true, []⟩)
      else
        let batch := build_batch p d
        let c1 := (s.cache.set_json "latest_scores" (CacheVal.batch batch)
          3600).2
        let c2 := store_historical_scores p.now c1 batch.scores
        (some batch,
         { processing := false, last_update := some p.now, cache := c2 },
         ⟨true, (d.financial.filter (fun q => !q.2.isEmpty)).map
            (fun q => q.1)⟩)

/-- `ProcessingService.get_ticker_history` (lines 111-119):
`history[-50:]`, `[]` when nothing is stored. -/
def get_ticker_history (s : OrchState) (ticker : String) : List HistEntry :=
  let history := (s.cache.getHistory ("history:" ++ ticker)).getD []
  history.drop (history.length - 50)

/-- `ProcessingService.get_latest_scores` (lines 121-134): return the
cached batch when present (a stored batch dict is always truthy), else
trigger `process_all_scores` synchronously. -/
def get_latest_scores (p : RunParams) (s : OrchState) :
    Option ProcessedBatch × OrchState × Trace :=
  match s.cache.getBatch "latest_scores" with
  | some b => (some b, s, Trace.none)
  | none => process_all_scores p s

theorem dlookup_nil {α : Type} (k : String) : dlookup ([] : List (String × α)) k = none := rfl

theorem dlookup_cons {α : Type} (a : String × α) (l : List (String × α))
    (k : String) :
    dlookup (a :: l) k = if a.1 == k then some a.2 else dlookup l k := by
  cases h : (a.1 == k) with
  | true => simp [dlookup, List.find?_cons_of_pos, h]
  | false => simp [dlookup, List.find?_cons_of_neg, h]

theorem dlookup_append_single {α : Type} (l : List (String × α))
    (k k' : String) (v : α) :
    dlookup (l ++ [(k, v)]) k'
      = if (k == k') = true then (dlookup l k').getD v |> some else dlookup l k' := by
  induction l with
  | nil =>
    rw [List.nil_append, dlookup_cons]
    cases h : (k == k') <;> simp [h, dlookup_nil]
  | cons a tl ih =>
    rw [List.cons_append, dlookup_cons, dlookup_cons]
    cases h : (a.1 == k') with
    | true => cases hk : (k == k') <;> simp [h, hk]
    | false => simpa [h] using ih

theorem dlookup_map_replace {α : Type} (l : List (String × α))
    (k k' : String) (v : α) (hne : k' ≠ k) :
    dlookup (l.map (fun p => if p.1 == k then (k, v) else p)) k'
      = dlookup l k' := by
  induction l with
  | nil => rfl
  | cons a tl ih =>
    simp only [List.map_cons]
    rw [dlookup_cons, dlookup_cons]
    by_cases h : (a.1 == k) = true
    · have ha : a.1 = k := by simpa using h
      simp only [h, if_true]
      have h1 : (k == k') = false := by simp [Ne.symm hne]
      have h2 : (a.1 == k') = false := by simp [ha, Ne.symm hne]
      simp only [h1, h2, Bool.false_eq_true, if_false]
      exact ih
    · simp only [h, Bool.false_eq_true, if_false]
      by_cases h' : (a.1 == k') = true
      · simp [h']
      · simp only [h', Bool.false_eq_true, if_false]
        exact ih

theorem dlookup_dinsert_self {α : Type} (l : List (String × α)) (k : String)
    (v : α) : dlookup (dinsert l k v) k = some v := by
  unfold dinsert
  by_cases hf : (l.find? (fun p => p.1 == k)).isSome
  · rw [if_pos hf]
    induction l with
    | nil => simp at hf
    | cons a tl ih =>
      simp only [List.map_cons]
      rw [dlookup_cons]
      by_cases h : (a.1 == k) = true
      · simp [h]
      · simp only [h, Bool.false_eq_true, if_false]
        apply ih
        simpa [List.find?_cons_of_neg, h] using hf
  · rw [if_neg hf]
    rw [dlookup_append_single]
    have hl : dlookup l k = none := by
      unfold dlookup
      cases hfind : l.find? (fun p => p.1 == k) with
      | none => rfl
      | some a => rw [hfind] at hf; simp at hf
    simp [hl]

theorem dlookup_dinsert_ne {α : Type} (l : List (String × α)) (k k' : String)
    (v : α) (hne : k' ≠ k) : dlookup (dinsert l k v) k' = dlookup l k' := by
  unfold dinsert
  by_cases hf : (l.find? (fun p => p.1 == k)).isSome
  · rw [if_pos hf]
    exact dlookup_map_replace l k k' v hne
  · rw [if_neg hf, dlookup_append_single]
    have h1 : (k == k') = false := by simp [Ne.symm hne]
    simp [h1]

theorem append_history_length (h : List HistEntry) (e : HistEntry) :
    (append_history h e).length ≤ 100 := by
  unfold append_history
  by_cases hl : 100 < (h ++ [e]).length
  · rw [if_pos hl]
    rw [List.length_drop]
    omega
  · rw [if_neg hl]
    omega

theorem append_history_suffix (h : List HistEntry) (e : HistEntry) :
    append_history h e <:+ h ++ [e] := by
  unfold append_history
  by_cases hl : 100 < (h ++ [e]).length
  · rw [if_pos hl]
    exact List.drop_suffix _ _
  · rw [if_neg hl]

/-- One loop iteration of `_store_historical_scores` leaves any history
key either untouched or holding a value of at most 100 entries. -/
theorem store_one_getHistory (now : Nat) (c : CacheState)
    (pr : String × ScoreResult) (k : String) :
    (store_one now c pr).getHistory k = c.getHistory k ∨
    ∃ h, (store_one now c pr).getHistory k = some h ∧ h.length ≤ 100 := by
  unfold store_one CacheState.set_json
  by_cases hf : c.failing = true
  · left
    simp [hf]
  · by_cases hk : k = "history:" ++ pr.1
    · right
      subst hk
      refine ⟨append_history ((c.getHistory ("history:" ++ pr.1)).getD [])
        (history_entry now pr.2), ?_, append_history_length _ _⟩
      simp only [hf, Bool.false_eq_true, if_false]
      unfold CacheState.getHistory CacheState.get_json
      simp only [Bool.not_eq_true] at hf
      simp [hf, dlookup_dinsert_self]
    · left
      simp only [hf, Bool.false_eq_true, if_false]
      unfold CacheState.getHistory CacheState.get_json
      simp only [Bool.not_eq_true] at hf
      simp [hf, dlookup_dinsert_ne _ _ _ _ hk]

/-- After `_store_historical_scores` runs over a whole batch, every stored
history value is either the untouched previous value or has at most 100
entries. -/
theorem store_historical_bound (scores : List (String × ScoreResult))
    (now : Nat) (c : CacheState) (k : String) (h : List HistEntry)
    (hh : (store_historical_scores now c scores).getHistory k = some h) :
    h.length ≤ 100 ∨ c.getHistory k = some h := by
  induction scores generalizing c with
  | nil => right; exact hh
  | cons pr tl ih =>
    have hh' : (store_historical_scores now (store_one now c pr) tl).getHistory k
        = some h := by
      simpa [store_historical_scores, List.foldl] using hh
    rcases ih (store_one now c pr) hh' with hb | heq
    · left; exact hb
    · rcases store_one_getHistory now c pr k with he | ⟨h2, he2, hb2⟩
      · right; rw [← he]; exact heq
      · left
        rw [heq] at he2
        obtain rfl : h = h2 := by injection he2
        exact hb2

theorem get_ticker_history_le (s : OrchState) (tk : String) :
    (get_ticker_history s tk).length ≤ 50 := by
  simp only [get_ticker_history]
  rw [List.length_drop]
  omega

/-- `history[-50:]` is a suffix of the stored list: the most recent
entries. -/
theorem get_ticker_history_suffix (s : OrchState) (tk : String) :
    get_ticker_history s tk
      <:+ (s.cache.getHistory ("history:" ++ tk)).getD [] := by
  simp only [get_ticker_history]
  exact List.drop_suffix _ _

theorem get_ticker_history_empty (s : OrchState) (tk : String)
    (hnone : s.cache.getHistory ("history:" ++ tk) = none) :
    get_ticker_history s tk = [] := by
  simp [get_ticker_history, hnone]

/-- C4: every append through `_store_historical_scores` leaves at most 100
entries, keeping a suffix (the most recent entries) of the appended list;
after storing a batch every history value is untouched or bounded by 100;
appending the 101st entry to a full buffer holding entries 1..100 leaves
exactly entries 2..101; and `get_ticker_history` returns at most the 50
most recent entries, with the empty list (not an error) when nothing is
stored for the ticker. -/
theorem history_bound (hist : List HistEntry) (e : HistEntry) (now : Nat)
    (c : CacheState) (scores : List (String × ScoreResult)) (k : String)
    (h : List HistEntry) (s s2 : OrchState) (tk tk2 : String)
    (hh : (store_historical_scores now c scores).getHistory k = some h)
    (hnone : s.cache.getHistory ("history:" ++ tk) = none) :
    (append_history hist e).length ≤ 100 ∧
    append_history hist e <:+ hist ++ [e] ∧
    (h.length ≤ 100 ∨ c.getHistory k = some h) ∧
    append_history ((List.range 100).map fun i => ⟨i + 1, 0, "x"⟩)
        ⟨101, 0, "x"⟩
      = ((List.range 100).map fun i => ⟨i + 2, 0, "x"⟩) ∧
    (get_ticker_history s2 tk2).length ≤ 50 ∧
    get_ticker_history s2 tk2
      <:+ (s2.cache.getHistory ("history:" ++ tk2)).getD [] ∧
    get_ticker_history s tk = [] :=
  ⟨append_history_length hist e, append_history_suffix hist e,
   store_historical_bound scores now c k h hh,
   by rfl,
   get_ticker_history_le s2 tk2,
   get_ticker_history_suffix s2 tk2,
   get_ticker_history_empty s tk hnone⟩

/-- An idle orchestrator over an empty, healthy cache. -/
def sIdle : OrchState := ⟨false, none, ⟨[], false⟩⟩

/-- An orchestrator observed mid-refresh (`self.processing == True`). -/
def sBusy : OrchState := ⟨true, none, ⟨[], false⟩⟩

/-- No executor failures. -/
def noFail : String → Bool := fun _ => false

/-- A run in which `ingest_all_data` returned the empty dict. -/
def pNone : RunParams := ⟨none, false, noFail, mOk, rlog0, 7⟩

/-- A cache already holding an empty history list for AAPL. -/
def histCache : CacheState := ⟨[("history:AAPL", CacheVal.history [])], false⟩

/-- C4 (witness): the bound theorem applied at concrete inputs. -/
theorem history_bound_witness :
    (append_history [] ⟨0, 0, ""⟩).length ≤ 100 ∧
    append_history [] ⟨0, 0, ""⟩ <:+ [] ++ [⟨0, 0, ""⟩] ∧
    (([] : List HistEntry).length ≤ 100 ∨
      histCache.getHistory "history:AAPL" = some []) ∧
    append_history ((List.range 100).map fun i => ⟨i + 1, 0, "x"⟩)
        ⟨101, 0, "x"⟩
      = ((List.range 100).map fun i => ⟨i + 2, 0, "x"⟩) ∧
    (get_ticker_history sIdle "AAPL").length ≤ 50 ∧
    get_ticker_history sIdle "AAPL"
      <:+ (sIdle.cache.getHistory ("history:" ++ "AAPL")).getD [] ∧
    get_ticker_history sIdle "AAPL" = [] :=
  history_bound [] ⟨0, 0, ""⟩ 0 histCache [] "history:AAPL" [] sIdle sIdle
    "AAPL" "AAPL" rfl rfl

/-- C1: single-flight refresh.  An invocation that observes
`self.processing == True` returns the last persisted batch (the cached
value, `{}` when none is cached), changes no state, and performs neither
ingestion nor scoring; and an invocation that acquires the guard leaves
the flag false on every exit path (ingestion failure, internal exception,
success), via the `finally`. -/
theorem single_flight_refresh (p q : RunParams) (s t : OrchState)
    (hbusy : t.processing = true) (hidle : s.processing = false) :
    (process_all_scores q t).1 = t.cache.getBatch "latest_scores" ∧
    (process_all_scores q t).2.1 = t ∧
    (process_all_scores q t).2.2 = Trace.none ∧
    (process_all_scores p s).2.1.processing = false := by
  refine ⟨?_, ?_, ?_, ?_⟩
  · simp [process_all_scores, hbusy]
  · simp [process_all_scores, hbusy]
  · simp [process_all_scores, hbusy]
  · simp only [process_all_scores, hidle, Bool.false_eq_true, if_false]
    cases p.ingest with
    | none => rfl
    | some d =>
      by_cases hr : p.raiseInBody = true
      · simp [hr]
      · simp only [Bool.not_eq_true] at hr
        simp [hr]

/-- C1 (witness): a second invocation against a busy orchestrator, and a
full invocation against an idle one. -/
theorem single_flight_refresh_witness :
    (process_all_scores pNone sBusy).1 = sBusy.cache.getBatch "latest_scores" ∧
    (process_all_scores pNone sBusy).2.1 = sBusy ∧
    (process_all_scores pNone sBusy).2.2 = Trace.none ∧
    (process_all_scores pNone sIdle).2.1.processing = false :=
  single_flight_refresh pNone pNone sIdle sBusy rfl rfl

/-- C7 (counterexample): on total ingestion failure `process_all_scores`
returns the literal empty dict `{}` (modelled as `none`), which carries no
score mapping, no entity count and no processing timestamp; it is not a
structurally valid `ProcessedBatch` (the repo's own `ProcessedData`
response schema requires those fields). -/
theorem empty_dict_not_batch_counterexample :
    (process_all_scores pNone sIdle).1 = none ∧
    ¬ ∃ b : ProcessedBatch, (process_all_scores pNone sIdle).1 = some b := by
  refine ⟨rfl, ?_⟩
  rintro ⟨b, hb⟩
  rw [show (process_all_scores pNone sIdle).1 = none from rfl] at hb
  cases hb

/-- C7 (amended): on total ingestion failure and on an internal processing
exception, `process_all_scores` absorbs the failure (it is a total
function), releases the single-flight guard, and returns the literal
empty dict `{}` — not a `ProcessedBatch` with empty fields — leaving the
cache and the last-update timestamp untouched. -/
theorem empty_dict_on_failure (p : RunParams) (s : OrchState)
    (hidle : s.processing = false)
    (hfail : p.ingest = none ∨ p.raiseInBody = true) :
    (process_all_scores p s).1 = none ∧
    (process_all_scores p s).2.1.processing = false ∧
    (process_all_scores p s).2.1.cache = s.cache ∧
    (process_all_scores p s).2.1.last_update = s.last_update := by
  simp only [process_all_scores, hidle, Bool.false_eq_true, if_false]
  rcases hfail with h | h
  · rw [h]
    exact ⟨rfl, rfl, rfl, rfl⟩
  · cases hi : p.ingest with
    | none => exact ⟨rfl, rfl, rfl, rfl⟩
    | some d => simp [h]

/-- C7 (witness): concrete total-ingestion-failure run. -/
theorem empty_dict_on_failure_witness :
    (process_all_scores pNone sIdle).1 = none ∧
    (process_all_scores pNone sIdle).2.1.processing = false ∧
    (process_all_scores pNone sIdle).2.1.cache = sIdle.cache ∧
    (process_all_scores pNone sIdle).2.1.last_update = sIdle.last_update :=
  empty_dict_on_failure pNone sIdle rfl (Or.inl rfl)

/-- With a failing cache connection every `_store_historical_scores` write
is absorbed (`set_json` returns `False` and changes nothing). -/
theorem store_historical_failing (scores : List (String × ScoreResult))
    (now : Nat) (c : CacheState) (hf : c.failing = true) :
    store_historical_scores now c scores = c := by
  induction scores generalizing c with
  | nil => rfl
  | cons pr tl ih =>
    have h1 : store_one now c pr = c := by
      unfold store_one CacheState.set_json
      simp [hf]
    show List.foldl (store_one now) c (pr :: tl) = c
    rw [List.foldl_cons, h1]
    exact ih c hf

/-- C9: when the Durable Cache is unavailable, the `latest_scores` write
returns `False` instead of raising, and `process_all_scores` still
returns the in-memory batch it built to its caller, releasing the guard,
with the cache left unchanged. -/
theorem cache_write_failure_absorbed (p : RunParams) (s : OrchState)
    (d : IngestedData) (hidle : s.processing = false)
    (hfail : s.cache.failing = true) (hsome : p.ingest = some d)
    (hraise : p.raiseInBody = false) :
    (s.cache.set_json "latest_scores" (CacheVal.batch (build_batch p d))
        3600).1 = false ∧
    (process_all_scores p s).1 = some (build_batch p d) ∧
    (process_all_scores p s).2.1.processing = false ∧
    (process_all_scores p s).2.1.cache = s.cache := by
  have hset : s.cache.set_json "latest_scores"
      (CacheVal.batch (build_batch p d)) 3600 = (false, s.cache) := by
    unfold CacheState.set_json
    simp [hfail]
  have hrun : process_all_scores p s
      = (some (build_batch p d),
         { processing := false, last_update := some p.now, cache := s.cache },
         ⟨true, (d.financial.filter (fun q => !q.2.isEmpty)).map
            (fun q => q.1)⟩) := by
    simp only [process_all_scores, hidle, Bool.false_eq_true, if_false,
      hsome, hraise]
    rw [hset, store_historical_failing _ _ _ hfail]
  exact ⟨by rw [hset], by rw [hrun], by rw [hrun], by rw [hrun]⟩

/-- A representative financial record. -/
def finSample : FinancialData :=
  ⟨some 1000000000, some (3/10), some 2, some (1/5), some 0, some 1,
   some 1000000⟩

/-- A representative news record. -/
def newsSample : NewsData := ⟨some (4/5), some 3, []⟩

/-- A representative macro record. -/
def macSample : MacroData := ⟨some 20, some 4, none, none, none⟩

/-- An ingestion result with one scoreable ticker and one ticker whose
financial fetch failed (empty record). -/
def ingestSample : IngestedData :=
  ⟨[("AAPL", finSample), ("EMPTY", emptyFin)], [("AAPL", newsSample)],
   macSample, 5⟩

/-- A successful run environment. -/
def pGood : RunParams := ⟨some ingestSample, false, noFail, mOk, rlog0, 7⟩

/-- Idle orchestrator whose cache connection raises on every call. -/
def sFailCache : OrchState := ⟨false, none, ⟨[], true⟩⟩

/-- C9 (witness): a concrete refresh against an unavailable cache. -/
theorem cache_write_failure_absorbed_witness :
    (sFailCache.cache.set_json "latest_scores"
        (CacheVal.batch (build_batch pGood ingestSample)) 3600).1 = false ∧
    (process_all_scores pGood sFailCache).1
      = some (build_batch pGood ingestSample) ∧
    (process_all_scores pGood sFailCache).2.1.processing = false ∧
    (process_all_scores pGood sFailCache).2.1.cache = sFailCache.cache :=
  cache_write_failure_absorbed pGood sFailCache ingestSample rfl rfl rfl rfl

/-- The `latest_scores` key never collides with a history key. -/
theorem latest_ne_hist_key (tk : String) :
    "latest_scores" ≠ "history:" ++ tk := by
  intro h
  have hd := congrArg String.data h
  rw [String.data_append] at hd
  rw [show "latest_scores".data
      = ['l', 'a', 't', 'e', 's', 't', '_', 's', 'c', 'o', 'r', 'e', 's']
      from rfl,
    show "history:".data = ['h', 'i', 's', 't', 'o', 'r', 'y', ':']
      from rfl] at hd
  simp only [List.cons_append, List.cons.injEq] at hd
  exact absurd hd.1 (by decide)

/-- A history write never touches the `latest_scores` key. -/
theorem store_one_latest (now : Nat) (c : CacheState)
    (pr : String × ScoreResult) :
    (store_one now c pr).get_json "latest_scores"
      = c.get_json "latest_scores" := by
  unfold store_one CacheState.set_json
  by_cases hf : c.failing = true
  · simp [hf]
  · simp only [hf, Bool.false_eq_true, if_false]
    unfold CacheState.get_json
    simp only [Bool.not_eq_true] at hf
    simp [hf, dlookup_dinsert_ne _ _ _ _ (latest_ne_hist_key pr.1)]

/-- `_store_historical_scores` leaves `latest_scores` untouched. -/
theorem store_historical_latest (scores : List (String × ScoreResult))
    (now : Nat) (c : CacheState) :
    (store_historical_scores now c scores).get_json "latest_scores"
      = c.get_json "latest_scores" := by
  induction scores generalizing c with
  | nil => rfl
  | cons pr tl ih =>
    show (List.foldl (store_one now) c (pr :: tl)).get_json "latest_scores" = _
    rw [List.foldl_cons]
    rw [show List.foldl (store_one now) (store_one now c pr) tl
        = store_historical_scores now (store_one now c pr) tl from rfl]
    rw [ih (store_one now c pr)]
    exact store_one_latest now c pr

/-- C8: cold start of `get_latest_scores`.  When the cache holds a latest
batch, it is returned without any refresh; when it holds none, exactly one
synchronous `process_all_scores` runs and its result is returned; and
after a successful refresh (healthy cache), a subsequent call returns the
now-cached batch without re-running ingestion. -/
theorem get_latest_cold_start (p q : RunParams) (s1 s2 : OrchState)
    (b : ProcessedBatch) (d : IngestedData) :
    (s1.cache.getBatch "latest_scores" = some b →
      get_latest_scores p s1 = (some b, s1, Trace.none)) ∧
    (s2.cache.getBatch "latest_scores" = none →
      get_latest_scores p s2 = process_all_scores p s2) ∧
    (s2.cache.getBatch "latest_scores" = none → s2.processing = false →
      s2.cache.failing = false → p.ingest = some d → p.raiseInBody = false →
      (get_latest_scores p s2).2.2.ingested = true ∧
      (get_latest_scores p s2).1 = some (build_batch p d) ∧
      (get_latest_scores q (get_latest_scores p s2).2.1).1
        = some (build_batch p d) ∧
      (get_latest_scores q (get_latest_scores p s2).2.1).2.2 = Trace.none) := by
  refine ⟨?_, ?_, ?_⟩
  · intro hb
    simp [get_latest_scores, hb]
  · intro hn
    simp [get_latest_scores, hn]
  · intro hn hidle hfail hsome hraise
    have hgl : get_latest_scores p s2 = process_all_scores p s2 := by
      simp [get_latest_scores, hn]
    have hc1 : s2.cache.set_json "latest_scores"
        (CacheVal.batch (build_batch p d)) 3600
        = (true, ⟨dinsert s2.cache.store "latest_scores"
            (CacheVal.batch (build_batch p d)), s2.cache.failing⟩) := by
      unfold CacheState.set_json
      simp [hfail]
    have hrun : process_all_scores p s2
        = (some (build_batch p d),
           { processing := false, last_update := some p.now,
             cache := store_historical_scores p.now
               ⟨dinsert s2.cache.store "latest_scores"
                  (CacheVal.batch (build_batch p d)), s2.cache.failing⟩
               (build_batch p d).scores },
           ⟨true, (d.financial.filter (fun x => !x.2.isEmpty)).map
              (fun x => x.1)⟩) := by
      simp only [process_all_scores, hidle, Bool.false_eq_true, if_false,
        hsome, hraise]
      rw [hc1]
    have hlat : (store_historical_scores p.now
        ⟨dinsert s2.cache.store "latest_scores"
           (CacheVal.batch (build_batch p d)), s2.cache.failing⟩
        (build_batch p d).scores).getBatch "latest_scores"
        = some (build_batch p d) := by
      unfold CacheState.getBatch
      rw [store_historical_latest]
      unfold CacheState.get_json
      simp [hfail, dlookup_dinsert_self]
    refine ⟨?_, ?_, ?_, ?_⟩
    · rw [hgl, hrun]
    · rw [hgl, hrun]
    · rw [hgl, hrun]
      simp [get_latest_scores, hlat]
    · rw [hgl, hrun]
      simp [get_latest_scores, hlat]

/-- The batch a successful `pGood` refresh builds. -/
def batchSample : ProcessedBatch := build_batch pGood ingestSample

/-- Idle orchestrator whose cache already holds a latest batch. -/
def sCached : OrchState :=
  ⟨false, none, ⟨[("latest_scores", CacheVal.batch batchSample)], false⟩⟩

/-- C8 (witness): warm read, cold-start refresh, and the subsequent warm
read of the batch it cached. -/
theorem get_latest_cold_start_witness :
    get_latest_scores pGood sCached = (some batchSample, sCached, Trace.none) ∧
    get_latest_scores pGood sIdle = process_all_scores pGood sIdle ∧
    (get_latest_scores pGood sIdle).2.2.ingested = true ∧
    (get_latest_scores pGood sIdle).1 = some (build_batch pGood ingestSample) ∧
    (get_latest_scores pGood (get_latest_scores pGood sIdle).2.1).1
      = some (build_batch pGood ingestSample) ∧
    (get_latest_scores pGood (get_latest_scores pGood sIdle).2.1).2.2
      = Trace.none := by
  have h := get_latest_cold_start pGood pGood sCached sIdle batchSample
    ingestSample
  have h3 := h.2.2 rfl rfl rfl rfl rfl
  exact ⟨h.1 rfl, h.2.1 rfl, h3.1, h3.2.1, h3.2.2.1, h3.2.2.2⟩

/-- In an association list with distinct keys (a Python dict), a key
determines its value. -/
theorem keys_nodup_eq {α : Type} (l : List (String × α)) (k : String)
    (a b : α) (hnd : (l.map Prod.fst).Nodup) (ha : (k, a) ∈ l)
    (hb : (k, b) ∈ l) : a = b := by
  induction l with
  | nil => cases ha
  | cons x tl ih =>
    rw [List.map_cons, List.nodup_cons] at hnd
    rcases List.mem_cons.mp ha with heq | ha'
    · rcases List.mem_cons.mp hb with heq2 | hb'
      · have h3 : (k, a) = (k, b) := heq.trans heq2.symm
        injection h3 with h4 h5
      · exfalso
        apply hnd.1
        have hx : x.1 = k := (congrArg Prod.fst heq).symm
        rw [hx]
        exact List.mem_map_of_mem Prod.fst hb'
    · rcases List.mem_cons.mp hb with heq2 | hb'
      · exfalso
        apply hnd.1
        have hx : x.1 = k := (congrArg Prod.fst heq2).symm
        rw [hx]
        exact List.mem_map_of_mem Prod.fst ha'
      · exact ih hnd.2 ha' hb'

/-- Every key present after the fan-in fold comes from a successful task
result carrying that ticker (or was already in the accumulator). -/
theorem collect_foldl_mem (rs : List TaskOutcome)
    (acc : List (String × ScoreResult)) (tk : String)
    (h : (dlookup (List.foldl collect_step acc rs) tk).isSome = true) :
    (dlookup acc tk).isSome = true ∨
    ∃ sr, TaskOutcome.result sr ∈ rs ∧ sr.ticker = tk := by
  induction rs generalizing acc with
  | nil => left; exact h
  | cons out tl ih =>
    rw [List.foldl_cons] at h
    rcases ih (collect_step acc out) h with h' | ⟨sr, hm, ht⟩
    · cases out with
      | result sr =>
        by_cases he : tk = sr.ticker
        · right
          exact ⟨sr, List.mem_cons_self _ _, he.symm⟩
        · left
          unfold collect_step at h'
          rwa [dlookup_dinsert_ne _ _ _ _ he] at h'
      | emptyDict => left; exact h'
      | exnObj => left; exact h'
    · right
      exact ⟨sr, List.mem_cons_of_mem _ hm, ht⟩

/-- Every key of the collected score mapping comes from a successful task
result carrying that ticker. -/
theorem collect_scores_mem (rs : List TaskOutcome) (tk : String)
    (h : (dlookup (collect_scores rs) tk).isSome = true) :
    ∃ sr, TaskOutcome.result sr ∈ rs ∧ sr.ticker = tk := by
  rcases collect_foldl_mem rs [] tk h with h' | hr
  · simp [dlookup] at h'
  · exact hr

/-- Every scheduled task belongs to a ticker with a truthy financial
record; with a trained model a non-failed task yields a result carrying
exactly that ticker. -/
theorem run_tasks_mem (p : RunParams) (d : IngestedData) (out : TaskOutcome)
    (hm : out ∈ run_tasks p d) (htr : p.m.isTrained = true) :
    out = TaskOutcome.emptyDict ∨
    ∃ tk fin, (tk, fin) ∈ d.financial ∧ fin.isEmpty = false ∧
      p.execFail tk = false ∧
      out = TaskOutcome.result (calculate_score p.m p.rlog p.now tk fin
        ((dlookup d.news tk).getD emptyNews) d.macroRec) ∧
      (calculate_score p.m p.rlog p.now tk fin
        ((dlookup d.news tk).getD emptyNews) d.macroRec).ticker = tk := by
  unfold run_tasks at hm
  rcases List.mem_map.mp hm with ⟨q, hq, rfl⟩
  have hfil := List.mem_filter.mp hq
  unfold calculate_score_async
  by_cases hx : p.execFail q.1 = true
  · left
    simp [hx]
  · right
    refine ⟨q.1, q.2, hfil.1, ?_, by simpa using hx, ?_, ?_⟩
    · simpa using hfil.2
    · simp [hx]
    · exact calculate_score_ticker_trained _ _ _ _ _ _ _ htr

/-- C5: batch membership invariant.  A successful refresh returns exactly
the built batch; its entity count equals the number of keys of its score
mapping; an entity whose financial record is empty is absent from the
mapping; and an entity whose per-entity computation failed (its task
returned the non-result `{}`) is absent rather than stored as an error
placeholder.  Hypotheses: the scorer is trained (as it is after startup)
and the ingested financial dict has distinct keys (a Python dict
guarantee). -/
theorem batch_membership (p : RunParams) (s : OrchState) (d : IngestedData)
    (hidle : s.processing = false) (hsome : p.ingest = some d)
    (hraise : p.raiseInBody = false) (htr : p.m.isTrained = true)
    (hnodup : (d.financial.map Prod.fst).Nodup) :
    (process_all_scores p s).1 = some (build_batch p d) ∧
    (build_batch p d).ticker_count = (build_batch p d).scores.length ∧
    (∀ tk fin, (tk, fin) ∈ d.financial → fin.isEmpty = true →
      dlookup (build_batch p d).scores tk = none) ∧
    (∀ tk, p.execFail tk = true →
      dlookup (build_batch p d).scores tk = none) := by
  refine ⟨?_, rfl, ?_, ?_⟩
  · simp only [process_all_scores, hidle, Bool.false_eq_true, if_false,
      hsome, hraise]
  · intro tk fin hmem hempty
    cases hdl : dlookup (build_batch p d).scores tk with
    | none => rfl
    | some r =>
      exfalso
      have hs' : (dlookup (collect_scores (run_tasks p d)) tk).isSome
          = true := by
        rw [show collect_scores (run_tasks p d) = (build_batch p d).scores
          from rfl, hdl]
        rfl
      obtain ⟨sr, hm, ht⟩ := collect_scores_mem _ _ hs'
      rcases run_tasks_mem p d _ hm htr with he |
        ⟨tk', fin', hmem', hne', hxf', heq', ht'⟩
      · cases he
      · injection heq' with hsr
        have h1 : (calculate_score p.m p.rlog p.now tk' fin'
            ((dlookup d.news tk').getD emptyNews) d.macroRec).ticker = tk := by
          rw [← hsr]
          exact ht
        have htk : tk' = tk := by rw [← ht', h1]
        subst htk
        have hff : fin' = fin := keys_nodup_eq d.financial tk' fin' fin
          hnodup hmem' hmem
        rw [hff, hempty] at hne'
        cases hne'
  · intro tk hxf
    cases hdl : dlookup (build_batch p d).scores tk with
    | none => rfl
    | some r =>
      exfalso
      have hs' : (dlookup (collect_scores (run_tasks p d)) tk).isSome
          = true := by
        rw [show collect_scores (run_tasks p d) = (build_batch p d).scores
          from rfl, hdl]
        rfl
      obtain ⟨sr, hm, ht⟩ := collect_scores_mem _ _ hs'
      rcases run_tasks_mem p d _ hm htr with he |
        ⟨tk', fin', hmem', hne', hxf', heq', ht'⟩
      · cases he
      · injection heq' with hsr
        have h1 : (calculate_score p.m p.rlog p.now tk' fin'
            ((dlookup d.news tk').getD emptyNews) d.macroRec).ticker = tk := by
          rw [← hsr]
          exact ht
        have htk : tk' = tk := by rw [← ht', h1]
        subst htk
        rw [hxf] at hxf'
        cases hxf'

/-- C5 (witness): the sample refresh: "EMPTY" (whose financial record is
the empty dict) is absent from the batch, and the count equals the number
of keys. -/
theorem batch_membership_witness :
    (process_all_scores pGood sIdle).1 = some (build_batch pGood ingestSample) ∧
    (build_batch pGood ingestSample).ticker_count
      = (build_batch pGood ingestSample).scores.length ∧
    dlookup (build_batch pGood ingestSample).scores "EMPTY" = none := by
  have h := batch_membership pGood sIdle ingestSample rfl rfl rfl rfl
    (by decide)
  exact ⟨h.1, h.2.1, h.2.2.1 "EMPTY" emptyFin (by decide) rfl⟩

end CredTech
